import Mathlib

/-!
# Shallow embedding of `gin_i18n.go`

The Go file implements a localization engine (`i18nImpl`) on top of the
go-i18n library: a registry `localizerByLng` from language strings to
localizers, built once by `setLocalizerByLng`, and the lookup entry points
`GetMessage` / `MustGetMessage`.

Conventions of the embedding:

* a Go pointer `*T` is `Option T`, `none` being the nil pointer;
* a Go map is an association list with unique-key insertion (`GoMap`); ranging
  over a map visits the list in its order, which is arbitrary;
* a Go function that may panic returns `Except Panic _`;
* a Go result pair `(string, error)` is `String × Option GoError`, `none` being
  the nil error;
* what lives outside the file (the go-i18n `Localize` method, the helper
  `GetLngFromGinContext`, the tag parser `language.ParseAcceptLanguage`) is a
  parameter of the functions that use it;
* a go-i18n localizer is represented by the arguments of its constructor; the
  chain of tags it walks is parsed from the handed strings (`i18n.Localizer.tags`).
-/

namespace GinI18n

/-! ## Go run-time model -/

/-- Run-time panics of the Go program that the embedded code can raise itself, and the panics of
the library methods it calls. -/
inductive Panic where
  | nilDereference
  | external (descr : String)
  deriving DecidableEq, Repr

/-- Go `error` values: the ones built by `errors.New` in this file, and the ones returned by the
go-i18n library. -/
inductive GoError where
  | errorsNew (msg : String)
  | localize (descr : String)
  deriving DecidableEq, Repr

/-- A Go map, as an association list in which every key occurs at most once when it is built
with `GoMap.insert` from the empty map. -/
abbrev GoMap (K V : Type) := List (K × V)

/-- The two-valued map read `v, ok := m[k]`: `some v` when the key is present. -/
def GoMap.lookup {K V : Type} [DecidableEq K] : GoMap K V → K → Option V
  | [], _ => none
  | (k', v) :: rest, k => if k' = k then some v else GoMap.lookup rest k

/-- The map write `m[k] = v`: replaces the value of an existing key, adds the key otherwise. -/
def GoMap.insert {K V : Type} [DecidableEq K] : GoMap K V → K → V → GoMap K V
  | [], k, v => [(k, v)]
  | (k', v') :: rest, k, v =>
    if k' = k then (k, v) :: rest else (k', v') :: GoMap.insert rest k v

/-- The one-valued read `m[k]` of a pointer-valued map: the nil pointer when the key is absent. -/
def GoMap.index {K V : Type} [DecidableEq K] (m : GoMap K (Option V)) (k : K) : Option V :=
  match GoMap.lookup m k with
  | some v => v
  | none => none

/-! ## Data model -/

/-- Modelled from the spec: the type `language.Tag` is declared outside the file; a tag is the
string its method `String()` returns ("Equality/lookup is by canonical string form"). A tag made
raw from a deprecated code keeps that code as its string. -/
structure language.Tag where
  canonical : String
  deriving DecidableEq, Repr

/-- The method `String()` of `language.Tag`. -/
def language.Tag.String (t : language.Tag) : String := t.canonical

/-- Modelled from the spec: the type `i18n.LocalizeConfig` of go-i18n is declared outside the
file; its fields are the ones of the structured lookup request: message key, optional template
data (name to value), optional plural count, optional default/fallback text. -/
structure i18n.LocalizeConfig where
  MessageID : String
  TemplateData : Option (List (String × String))
  PluralCount : Option Int
  DefaultMessage : Option String
  deriving DecidableEq, Repr

/-- Modelled from the spec: the package's own type `LocalizeConfig` is declared outside the file;
the conversion `i18n.LocalizeConfig(*paramValue)` requires it to have the fields of
`i18n.LocalizeConfig`. -/
structure LocalizeConfig where
  MessageID : String
  TemplateData : Option (List (String × String))
  PluralCount : Option Int
  DefaultMessage : Option String
  deriving DecidableEq, Repr

/-- The Go conversion `i18n.LocalizeConfig(v)` of a `LocalizeConfig` value. -/
def LocalizeConfig.toI18n (v : LocalizeConfig) : i18n.LocalizeConfig :=
  { MessageID := v.MessageID
    TemplateData := v.TemplateData
    PluralCount := v.PluralCount
    DefaultMessage := v.DefaultMessage }

/-- A go-i18n localizer, represented by the arguments `i18n.NewLocalizer(bundle, lngs...)` it was
constructed from: the bundle and the language strings handed over, in order. The strings are not
the chain the localizer walks: that chain is `i18n.Localizer.tags`, parsed from them. -/
structure i18n.Localizer (Bundle : Type) where
  bundle : Bundle
  lngs : List String
  deriving DecidableEq, Repr

/-- The constructor `i18n.NewLocalizer(bundle, lngs...)`, recording its arguments. -/
def i18n.NewLocalizer {Bundle : Type} (bundle : Bundle) (lngs : List String) :
    i18n.Localizer Bundle :=
  { bundle := bundle, lngs := lngs }

/-- The type of the library function `language.ParseAcceptLanguage`: the tags a language string
parses to, `none` when it does not parse. -/
abbrev ParseFn := String → Option (List language.Tag)

/-- The loop `parseTags` of go-i18n, run by `i18n.NewLocalizer` on the handed strings: a string
that does not parse is skipped, the tags of one that parses are appended. -/
def i18n.parseTags (ParseAcceptLanguage : ParseFn) (langs : List String) : List language.Tag :=
  langs.foldl
    (fun tags lang =>
      match ParseAcceptLanguage lang with
      | none => tags
      | some t => tags ++ t)
    []

/-- The field `tags` of a go-i18n localizer, the fallback chain it walks: the tags parsed from
the strings handed to the constructor. -/
def i18n.Localizer.tags {Bundle : Type} (ParseAcceptLanguage : ParseFn)
    (l : i18n.Localizer Bundle) : List language.Tag :=
  i18n.parseTags ParseAcceptLanguage l.lngs

/-- The struct `i18nImpl`. `Ctx` is `gin.Context`, `Bundle` is `i18n.Bundle`; the engine holds
pointers to both, and the registry holds pointers to localizers. -/
structure i18nImpl (Ctx Bundle : Type) where
  rootPath : String
  bundle : Bundle
  localizerByLng : GoMap String (Option (i18n.Localizer Bundle))
  acceptLanguage : GoMap language.Tag Bool
  defaultLanguage : language.Tag
  currentContext : Option Ctx

/-- The dynamic value passed as `param interface{}`: a `string`, a `*LocalizeConfig` (possibly
the nil pointer), or a value of any other dynamic type (the untyped nil included), which the code
only ever formats with `%v`; such a value is represented by that rendering. -/
inductive Param where
  | string (paramValue : String)
  | localizeConfig (paramValue : Option LocalizeConfig)
  | other (rendering : String)
  deriving DecidableEq, Repr

section Engine

variable {Ctx Bundle : Type}

/-! ## Registry construction -/

/-- The language strings of the keys of the supported-language map. -/
def supportedStrings (i : i18nImpl Ctx Bundle) : List String :=
  i.acceptLanguage.map (fun entry => entry.1.String)

/-- The method `newLocalizer`: the chain starts with `lng`, the default language is appended
when it differs. -/
def newLocalizer (i : i18nImpl Ctx Bundle) (lng : String) : Option (i18n.Localizer Bundle) :=
  let lngDefault := i.defaultLanguage.String
  let lngs := [lng]
  let lngs := if lng ≠ lngDefault then lngs ++ [lngDefault] else lngs
  let localizer := i18n.NewLocalizer i.bundle lngs
  some localizer

/-- One iteration of the loop of `setLocalizerByLng`, for the map entry `(lng, _)`. -/
def setLocalizerByLng.step (i : i18nImpl Ctx Bundle) (entry : language.Tag × Bool) :
    i18nImpl Ctx Bundle :=
  let lngStr := entry.1.String
  { i with localizerByLng := GoMap.insert i.localizerByLng lngStr (newLocalizer i lngStr) }

/-- The method `setLocalizerByLng`: resets the registry, stores a localizer for every key of
`acceptLanguage`, then one for the default language if it has none yet. -/
def setLocalizerByLng (i : i18nImpl Ctx Bundle) : i18nImpl Ctx Bundle :=
  let i := { i with localizerByLng := [] }
  let i := i.acceptLanguage.foldl setLocalizerByLng.step i
  let defaultLng := i.defaultLanguage.String
  match GoMap.lookup i.localizerByLng defaultLng with
  | some _ => i
  | none =>
    { i with localizerByLng := GoMap.insert i.localizerByLng defaultLng (newLocalizer i defaultLng) }

/-- The method `getLocalizerByLng`: the entry under `lng` when present, else the one-valued read
under the default language. -/
def getLocalizerByLng (i : i18nImpl Ctx Bundle) (lng : String) : Option (i18n.Localizer Bundle) :=
  match GoMap.lookup i.localizerByLng lng with
  | some localizer => localizer
  | none => GoMap.index i.localizerByLng i.defaultLanguage.String

/-! ## Lookup -/

/-- The method `getLocalizeConfig`: the type switch on `param`. Dereferencing a nil
`*LocalizeConfig` panics. -/
def getLocalizeConfig (_i : i18nImpl Ctx Bundle) (param : Param) :
    Except Panic (Option i18n.LocalizeConfig × Option GoError) :=
  match param with
  | .string paramValue =>
    let localizeConfig : i18n.LocalizeConfig :=
      { MessageID := paramValue, TemplateData := none, PluralCount := none, DefaultMessage := none }
    .ok (some localizeConfig, none)
  | .localizeConfig paramValue =>
    match paramValue with
    | none => .error Panic.nilDereference
    | some v =>
      let result := LocalizeConfig.toI18n v
      .ok (some result, none)
  | .other rendering =>
    let msg := "un supported localize param: " ++ rendering
    .ok (none, some (GoError.errorsNew msg))

/-- The type of the library method `(*i18n.Localizer).Localize`, called on a localizer pointer
with a config pointer. -/
abbrev LocalizeFn (Bundle : Type) :=
  Option (i18n.Localizer Bundle) → Option i18n.LocalizeConfig →
    Except Panic (String × Option GoError)

/-- The method `GetMessage`. `GetLngFromGinContext` (declared outside the file, taken as a total
function from the context pointer to a language string) and the library method `Localize` are
parameters. The body assigns to no field of the engine, so only the result is returned. -/
def GetMessage (GetLngFromGinContext : Option Ctx → String) (Localize : LocalizeFn Bundle)
    (i : i18nImpl Ctx Bundle) (param : Param) : Except Panic (String × Option GoError) :=
  let lng := GetLngFromGinContext i.currentContext
  let localizer := getLocalizerByLng i lng
  match getLocalizeConfig i param with
  | .error p => .error p
  | .ok (localizeConfig, err) =>
    match err with
    | some e => .ok ("", some e)
    | none =>
      match Localize localizer localizeConfig with
      | .error p => .error p
      | .ok (message, err) =>
        match err with
        | some e => .ok ("", some e)
        | none => .ok (message, none)

/-- The method `MustGetMessage`: the string of `GetMessage`, the error dropped. -/
def MustGetMessage (GetLngFromGinContext : Option Ctx → String) (Localize : LocalizeFn Bundle)
    (i : i18nImpl Ctx Bundle) (param : Param) : Except Panic String :=
  match GetMessage GetLngFromGinContext Localize i param with
  | .error p => .error p
  | .ok (message, _) => .ok message

/-- The method `SetCurrentGinContext`. -/
def SetCurrentGinContext (i : i18nImpl Ctx Bundle) (ctx : Option Ctx) : i18nImpl Ctx Bundle :=
  { i with currentContext := ctx }

end Engine

/-! ## A sample instance

The theorems below hold for every context type, bundle type, `GetLngFromGinContext` and
`Localize`. The sample instance gives them concrete inputs. -/

/-- Modelled from the spec: `GetLngFromGinContext` is declared outside the file; it maps the
request context to the caller's negotiated language string. The sample context is that string, and
the nil context gives the empty string. -/
def sampleGetLng : Option String → String
  | some lng => lng
  | none => ""

/-- A sample catalog store: per language string, the message texts by key. -/
abbrev SampleBundle := GoMap String (GoMap String String)

/-- The text of a message key in the catalog of one language of a sample bundle. -/
def sampleFind (bundle : SampleBundle) (messageID : String) (lng : String) : Option String :=
  (GoMap.lookup bundle lng).bind (fun catalog => GoMap.lookup catalog messageID)

/-- A sample of the library method `Localize`. The catalog of the first language handed to the
localizer gives the text without error. A text found only in a later language, or the default
text of the request used for a localizer with a second language, comes with a not-found error,
as go-i18n reports on fallback. Nothing found gives the not-found error alone. A nil receiver or
a nil config panics. -/
def sampleLocalize : LocalizeFn SampleBundle
  | none, _ => .error (Panic.external "nil localizer")
  | some _, none => .error (Panic.external "nil config")
  | some l, some cfg =>
    let notFound := GoError.localize ("message not found: " ++ cfg.MessageID)
    match l.lngs.head?.bind (sampleFind l.bundle cfg.MessageID) with
    | some text => .ok (text, none)
    | none =>
      match l.lngs.tail.findSome? (sampleFind l.bundle cfg.MessageID) with
      | some text => .ok (text, some notFound)
      | none =>
        match cfg.DefaultMessage with
        | some text => .ok (text, if l.lngs.length ≤ 1 then none else some notFound)
        | none => .ok ("", some notFound)

/-- A sample of the library function `language.ParseAcceptLanguage`: the empty string does not
parse, the deprecated code `iw` parses to the tag `he` that replaces it, any other string parses
to the one tag of that string. -/
def sampleParse : ParseFn := fun s =>
  if s = "" then none
  else if s = "iw" then some [⟨"he"⟩]
  else some [⟨s⟩]

/-- A sample engine state before `setLocalizerByLng`: catalogs for `en` and `fr`, supported
languages `en` and `fr`, default language `en`, no current context. -/
def sampleEngine : i18nImpl String SampleBundle :=
  { rootPath := "locales"
    bundle := [("en", [("greet", "Hello")]), ("fr", [("greet", "Bonjour")])]
    localizerByLng := []
    acceptLanguage := [(⟨"en"⟩, true), (⟨"fr"⟩, true)]
    defaultLanguage := ⟨"en"⟩
    currentContext := none }

/-- A sample engine state whose default language `de` is not among the supported ones. -/
def sampleEngineDe : i18nImpl String SampleBundle :=
  { sampleEngine with defaultLanguage := ⟨"de"⟩ }

/-- A sample engine state whose one supported language is the raw tag `iw` and whose default
language is `he`. -/
def sampleEngineIw : i18nImpl String SampleBundle :=
  { sampleEngine with acceptLanguage := [(⟨"iw"⟩, true)], defaultLanguage := ⟨"he"⟩ }

/-! ## Map lemmas -/

section Lemmas

variable {Ctx Bundle : Type}

theorem GoMap.lookup_insert_self {K V : Type} [DecidableEq K] (m : GoMap K V) (k : K) (v : V) :
    GoMap.lookup (GoMap.insert m k v) k = some v := by
  induction m with
  | nil => simp [GoMap.insert, GoMap.lookup]
  | cons hd tl ih =>
    obtain ⟨k', v'⟩ := hd
    by_cases h : k' = k
    · simp [GoMap.insert, GoMap.lookup, h]
    · simp [GoMap.insert, GoMap.lookup, h, ih]

theorem GoMap.lookup_insert_of_ne {K V : Type} [DecidableEq K] (m : GoMap K V) (k j : K) (v : V)
    (hne : k ≠ j) : GoMap.lookup (GoMap.insert m k v) j = GoMap.lookup m j := by
  induction m with
  | nil => simp [GoMap.insert, GoMap.lookup, hne]
  | cons hd tl ih =>
    obtain ⟨k', v'⟩ := hd
    by_cases h : k' = k
    · subst h
      simp [GoMap.insert, GoMap.lookup, hne]
    · by_cases hj : k' = j
      · subst hj
        simp [GoMap.insert, GoMap.lookup, h]
      · simp [GoMap.insert, GoMap.lookup, h, hj, ih]

theorem GoMap.lookup_insert {K V : Type} [DecidableEq K] (m : GoMap K V) (k j : K) (v : V) :
    GoMap.lookup (GoMap.insert m k v) j = if k = j then some v else GoMap.lookup m j := by
  by_cases h : k = j
  · subst h
    simp [GoMap.lookup_insert_self]
  · simp [h, GoMap.lookup_insert_of_ne m k j v h]

/-! ## Registry lemmas -/

theorem newLocalizer_eq (i : i18nImpl Ctx Bundle) (lng : String) :
    newLocalizer i lng =
      some { bundle := i.bundle
             lngs := if lng = i.defaultLanguage.String then [lng]
                     else [lng, i.defaultLanguage.String] } := by
  unfold newLocalizer i18n.NewLocalizer
  by_cases h : lng = i.defaultLanguage.String <;> simp [h]

theorem newLocalizer_congr (i j : i18nImpl Ctx Bundle) (hb : i.bundle = j.bundle)
    (hd : i.defaultLanguage = j.defaultLanguage) (lng : String) :
    newLocalizer i lng = newLocalizer j lng := by
  simp [newLocalizer_eq, hb, hd]

/-- The loop of `setLocalizerByLng` only writes the registry. -/
theorem foldl_step_fields (l : List (language.Tag × Bool)) (j : i18nImpl Ctx Bundle) :
    (l.foldl setLocalizerByLng.step j).bundle = j.bundle ∧
    (l.foldl setLocalizerByLng.step j).defaultLanguage = j.defaultLanguage ∧
    (l.foldl setLocalizerByLng.step j).acceptLanguage = j.acceptLanguage ∧
    (l.foldl setLocalizerByLng.step j).currentContext = j.currentContext ∧
    (l.foldl setLocalizerByLng.step j).rootPath = j.rootPath := by
  induction l generalizing j with
  | nil => simp
  | cons hd tl ih =>
    simp only [List.foldl_cons]
    obtain ⟨h1, h2, h3, h4, h5⟩ := ih (setLocalizerByLng.step j hd)
    exact ⟨h1, h2, h3, h4, h5⟩

/-- The registry after the loop: a visited language string maps to its localizer, any other key
keeps its earlier entry. -/
theorem foldl_step_lookup (l : List (language.Tag × Bool)) (j : i18nImpl Ctx Bundle)
    (k : String) :
    GoMap.lookup (l.foldl setLocalizerByLng.step j).localizerByLng k =
      if k ∈ l.map (fun entry => entry.1.String) then some (newLocalizer j k)
      else GoMap.lookup j.localizerByLng k := by
  induction l generalizing j with
  | nil => simp
  | cons hd tl ih =>
    simp only [List.foldl_cons, List.map_cons, List.mem_cons]
    rw [ih (setLocalizerByLng.step j hd)]
    have hn : newLocalizer (setLocalizerByLng.step j hd) k = newLocalizer j k :=
      newLocalizer_congr _ _ rfl rfl k
    have hs : GoMap.lookup (setLocalizerByLng.step j hd).localizerByLng k =
        if hd.1.String = k then some (newLocalizer j hd.1.String)
        else GoMap.lookup j.localizerByLng k := by
      simp [setLocalizerByLng.step, GoMap.lookup_insert]
    rw [hn, hs]
    by_cases h1 : k ∈ tl.map (fun entry => entry.1.String)
    · simp [h1]
    · by_cases h2 : hd.1.String = k
      · subst h2
        simp
      · have h3 : ¬ k = hd.1.String := fun h => h2 h.symm
        simp [h1, h2, h3]

/-- The method `setLocalizerByLng` only writes the registry. -/
theorem setLocalizerByLng_fields (i : i18nImpl Ctx Bundle) :
    (setLocalizerByLng i).bundle = i.bundle ∧
    (setLocalizerByLng i).defaultLanguage = i.defaultLanguage ∧
    (setLocalizerByLng i).acceptLanguage = i.acceptLanguage ∧
    (setLocalizerByLng i).currentContext = i.currentContext := by
  obtain ⟨h1, h2, h3, h4, _⟩ :=
    foldl_step_fields i.acceptLanguage { i with localizerByLng := [] }
  unfold setLocalizerByLng
  simp only
  split <;> exact ⟨h1, h2, h3, h4⟩

/-- The registry built by `setLocalizerByLng`, key by key. -/
theorem setLocalizerByLng_lookup (i : i18nImpl Ctx Bundle) (k : String) :
    GoMap.lookup (setLocalizerByLng i).localizerByLng k =
      if k ∈ supportedStrings i ∨ k = i.defaultLanguage.String then some (newLocalizer i k)
      else none := by
  have hl := foldl_step_lookup i.acceptLanguage { i with localizerByLng := [] }
  obtain ⟨hb, hd, _, _, _⟩ :=
    foldl_step_fields i.acceptLanguage { i with localizerByLng := [] }
  have hn : ∀ s, newLocalizer ({ i with localizerByLng := [] } : i18nImpl Ctx Bundle) s
      = newLocalizer i s := fun s => newLocalizer_congr _ _ rfl rfl s
  have hn2 : ∀ s, newLocalizer
      (i.acceptLanguage.foldl setLocalizerByLng.step { i with localizerByLng := [] }) s
      = newLocalizer i s := fun s => newLocalizer_congr _ _ hb hd s
  simp only [hn, GoMap.lookup] at hl
  simp only at hd
  unfold setLocalizerByLng
  simp only [supportedStrings]
  split
  · rename_i v hv
    rw [hl]
    rw [hl, hd] at hv
    by_cases h1 : k ∈ i.acceptLanguage.map (fun entry => entry.1.String)
    · simp [h1]
    · by_cases h2 : k = i.defaultLanguage.String
      · subst h2
        simp [h1] at hv
      · simp [h1, h2]
  · rename_i hv
    rw [hl, hd] at hv
    simp only [GoMap.lookup_insert, hl, hd, hn2]
    have hdn : i.defaultLanguage.String ∉ i.acceptLanguage.map (fun entry => entry.1.String) := by
      intro hmem
      simp [hmem] at hv
    by_cases h2 : k = i.defaultLanguage.String
    · subst h2
      simp
    · have h3 : ¬ i.defaultLanguage.String = k := fun h => h2 h.symm
      by_cases h1 : k ∈ i.acceptLanguage.map (fun entry => entry.1.String)
      · simp [h1, h3]
      · simp [h1, h2, h3]

theorem getLocalizerByLng_of_unsupported (i : i18nImpl Ctx Bundle) (L : String)
    (hL : L ∉ supportedStrings i) :
    getLocalizerByLng (setLocalizerByLng i) L =
      getLocalizerByLng (setLocalizerByLng i) i.defaultLanguage.String := by
  obtain ⟨_, hd, _, _⟩ := setLocalizerByLng_fields i
  unfold getLocalizerByLng GoMap.index
  rw [hd, setLocalizerByLng_lookup i L, setLocalizerByLng_lookup i i.defaultLanguage.String]
  by_cases h : L = i.defaultLanguage.String
  · subst h
    simp
  · simp [hL, h]

end Lemmas

/-! ## The registry (C1 - C5) -/

section Registry

variable {Ctx Bundle : Type}

/-- C1: on every registry built by `setLocalizerByLng`, for any supported-language map and any
default language, `getLocalizerByLng` returns a non-nil localizer for every string `lng`: the
entry stored under exactly `lng` when there is one, and otherwise the entry stored under the
default language's string. -/
theorem getLocalizerByLng_total (i : i18nImpl Ctx Bundle) (lng : String) :
    ∃ localizer : i18n.Localizer Bundle,
      getLocalizerByLng (setLocalizerByLng i) lng = some localizer ∧
      (match GoMap.lookup (setLocalizerByLng i).localizerByLng lng with
       | some entry => entry = some localizer
       | none =>
         GoMap.lookup (setLocalizerByLng i).localizerByLng
           (setLocalizerByLng i).defaultLanguage.String = some (some localizer)) := by
  obtain ⟨_, hd, _, _⟩ := setLocalizerByLng_fields i
  unfold getLocalizerByLng GoMap.index
  rw [hd, setLocalizerByLng_lookup i lng, setLocalizerByLng_lookup i i.defaultLanguage.String]
  by_cases h : lng ∈ supportedStrings i ∨ lng = i.defaultLanguage.String
  · simp [h, newLocalizer_eq]
  · simp [h, newLocalizer_eq]

/-- C2: on the registry built by `setLocalizerByLng`, when the current language `L` is not the
string of any supported language, `GetMessage` returns for every request `K` exactly what it
returns when the current language is the default language's string. -/
theorem GetMessage_unsupported_eq_default (GetLngFromGinContext : Option Ctx → String)
    (Localize : LocalizeFn Bundle) (i : i18nImpl Ctx Bundle) (ctxL ctxD : Option Ctx)
    (K : Param) (L : String)
    (hctxL : GetLngFromGinContext ctxL = L)
    (hL : L ∉ supportedStrings i)
    (hctxD : GetLngFromGinContext ctxD = i.defaultLanguage.String) :
    GetMessage GetLngFromGinContext Localize (SetCurrentGinContext (setLocalizerByLng i) ctxL) K =
      GetMessage GetLngFromGinContext Localize
        (SetCurrentGinContext (setLocalizerByLng i) ctxD) K := by
  have h := getLocalizerByLng_of_unsupported i L hL
  have h1 : ∀ c s, getLocalizerByLng (SetCurrentGinContext (setLocalizerByLng i) c) s =
      getLocalizerByLng (setLocalizerByLng i) s := fun _ _ => rfl
  have h2 : ∀ c, getLocalizeConfig (SetCurrentGinContext (setLocalizerByLng i) c) K =
      getLocalizeConfig (setLocalizerByLng i) K := fun _ => rfl
  have h3 : ∀ c, (SetCurrentGinContext (setLocalizerByLng i) c).currentContext = c :=
    fun _ => rfl
  unfold GetMessage
  simp only [h1, h2, h3, hctxL, hctxD, h]

/-- Witness of C2: supported languages `en` and `fr`, default `en`, current language `de`. -/
theorem GetMessage_unsupported_eq_default_witness :
    sampleGetLng (some "de") = "de" ∧ "de" ∉ supportedStrings sampleEngine ∧
    sampleGetLng (some "en") = sampleEngine.defaultLanguage.String ∧
    GetMessage sampleGetLng sampleLocalize
        (SetCurrentGinContext (setLocalizerByLng sampleEngine) (some "de")) (Param.string "greet") =
      GetMessage sampleGetLng sampleLocalize
        (SetCurrentGinContext (setLocalizerByLng sampleEngine) (some "en")) (Param.string "greet") :=
  ⟨rfl, by decide, rfl,
    GetMessage_unsupported_eq_default sampleGetLng sampleLocalize sampleEngine (some "de")
      (some "en") (Param.string "greet") "de" rfl (by decide) rfl⟩

/-- C3: the chain that `newLocalizer` hands to `i18n.NewLocalizer` is exactly `[lng]` when `lng`
is the default language's string and exactly `[lng, default]` otherwise. -/
theorem newLocalizer_chain (i : i18nImpl Ctx Bundle) (lng : String) :
    ∃ localizer : i18n.Localizer Bundle,
      newLocalizer i lng = some localizer ∧
      localizer.lngs =
        if lng = i.defaultLanguage.String then [lng] else [lng, i.defaultLanguage.String] :=
  ⟨_, newLocalizer_eq i lng, rfl⟩

/-- The list of strings `newLocalizer` hands to `i18n.NewLocalizer` is non-empty, ends with the
default language's string and has no duplicate string. -/
theorem newLocalizer_strings_well_formed (i : i18nImpl Ctx Bundle) (lng : String) :
    ∃ localizer : i18n.Localizer Bundle,
      newLocalizer i lng = some localizer ∧ localizer.lngs ≠ [] ∧
      localizer.lngs.getLast? = some i.defaultLanguage.String ∧ localizer.lngs.Nodup := by
  refine ⟨_, newLocalizer_eq i lng, ?_⟩
  by_cases h : lng = i.defaultLanguage.String
  · simp [h]
  · simp [h]

/-- Two tags with the same string form are the same tag. -/
theorem language.Tag.eq_of_String_eq (a b : language.Tag) (h : a.String = b.String) : a = b := by
  cases a
  cases b
  simpa [language.Tag.String] using h

/-- The tags parsed from the strings `newLocalizer` hands over, when `lng` and the default
language's string each parse to the one tag they are the string form of. -/
theorem newLocalizer_tags (ParseAcceptLanguage : ParseFn) (i : i18nImpl Ctx Bundle)
    (lng : String) (t : language.Tag)
    (ht : ParseAcceptLanguage lng = some [t]) (hts : t.String = lng)
    (hd : ParseAcceptLanguage i.defaultLanguage.String = some [i.defaultLanguage]) :
    ∃ localizer : i18n.Localizer Bundle,
      newLocalizer i lng = some localizer ∧ localizer.tags ParseAcceptLanguage ≠ [] ∧
      (localizer.tags ParseAcceptLanguage).getLast? = some i.defaultLanguage ∧
      (localizer.tags ParseAcceptLanguage).Nodup := by
  refine ⟨_, newLocalizer_eq i lng, ?_⟩
  by_cases h : lng = i.defaultLanguage.String
  · have htd : t = i.defaultLanguage := language.Tag.eq_of_String_eq _ _ (hts.trans h)
    subst htd
    simp [h, i18n.Localizer.tags, i18n.parseTags, hd]
  · have hne : t ≠ i.defaultLanguage := by
      intro heq
      exact h (by rw [← hts, heq])
    simp [h, i18n.Localizer.tags, i18n.parseTags, ht, hd, hne]

/-- C4 (counterexample): with the raw tag `iw` supported and default language `he`, the strings
handed for the registry entry under `iw` are `iw`, `he`, and the chain of tags the stored
resolver parses from them is `he`, `he`: a duplicate entry. -/
theorem chain_duplicate_tags :
    GoMap.lookup (setLocalizerByLng sampleEngineIw).localizerByLng "iw" =
      some (some { bundle := sampleEngineIw.bundle, lngs := ["iw", "he"] }) ∧
    i18n.Localizer.tags sampleParse
      ({ bundle := sampleEngineIw.bundle, lngs := ["iw", "he"] } : i18n.Localizer SampleBundle) =
        [⟨"he"⟩, ⟨"he"⟩] ∧
    ¬ (i18n.Localizer.tags sampleParse
      ({ bundle := sampleEngineIw.bundle, lngs := ["iw", "he"] } :
        i18n.Localizer SampleBundle)).Nodup := by
  refine ⟨rfl, rfl, ?_⟩
  have h : i18n.Localizer.tags sampleParse
      ({ bundle := sampleEngineIw.bundle, lngs := ["iw", "he"] } : i18n.Localizer SampleBundle) =
        [⟨"he"⟩, ⟨"he"⟩] := rfl
  rw [h]
  simp

/-- C4 (amended): the list of strings `newLocalizer` hands to `i18n.NewLocalizer`, for any `lng`
and for every localizer stored in the registry by `setLocalizerByLng`, is non-empty, ends with the
default language's string and has no duplicate string. When every supported language's string and
the default language's string parse to exactly the one tag they are the string form of, the chain
of tags of every stored localizer is non-empty, ends with the default language and has no
duplicate entry. -/
theorem chain_well_formed (ParseAcceptLanguage : ParseFn) (i : i18nImpl Ctx Bundle)
    (hparse : ∀ s : String, s ∈ supportedStrings i ∨ s = i.defaultLanguage.String →
      ∃ t : language.Tag, ParseAcceptLanguage s = some [t] ∧ t.String = s) :
    (∀ lng : String, ∃ localizer : i18n.Localizer Bundle,
      newLocalizer i lng = some localizer ∧ localizer.lngs ≠ [] ∧
      localizer.lngs.getLast? = some i.defaultLanguage.String ∧ localizer.lngs.Nodup) ∧
    (∀ (k : String) (entry : Option (i18n.Localizer Bundle)),
      GoMap.lookup (setLocalizerByLng i).localizerByLng k = some entry →
      ∃ localizer : i18n.Localizer Bundle,
        entry = some localizer ∧
        (localizer.lngs ≠ [] ∧
          localizer.lngs.getLast? = some (setLocalizerByLng i).defaultLanguage.String ∧
          localizer.lngs.Nodup) ∧
        (localizer.tags ParseAcceptLanguage ≠ [] ∧
          (localizer.tags ParseAcceptLanguage).getLast? =
            some (setLocalizerByLng i).defaultLanguage ∧
          (localizer.tags ParseAcceptLanguage).Nodup)) := by
  refine ⟨newLocalizer_strings_well_formed i, ?_⟩
  intro k entry hk
  obtain ⟨_, hd, _, _⟩ := setLocalizerByLng_fields i
  rw [setLocalizerByLng_lookup i k] at hk
  rw [hd]
  by_cases h : k ∈ supportedStrings i ∨ k = i.defaultLanguage.String
  · simp only [h, if_true, Option.some.injEq] at hk
    obtain ⟨t, ht, hts⟩ := hparse k h
    obtain ⟨td, htd, htds⟩ := hparse i.defaultLanguage.String (Or.inr rfl)
    have hdd : td = i.defaultLanguage := language.Tag.eq_of_String_eq _ _ htds
    subst hdd
    obtain ⟨l1, h1, h2⟩ := newLocalizer_strings_well_formed i k
    obtain ⟨l2, h3, h4⟩ := newLocalizer_tags ParseAcceptLanguage i k t ht hts htd
    have hl : l2 = l1 := Option.some.inj (h3.symm.trans h1)
    subst hl
    exact ⟨l2, by rw [← hk, h1], h2, h4⟩
  · simp [h] at hk

/-- Witness of C4 (amended): the entry under `fr` of the sample registry with supported languages
`en` and `fr` and default language `de`, all three parsed to their own tag. -/
theorem chain_well_formed_witness :
    (∀ s : String, s ∈ supportedStrings sampleEngineDe ∨
        s = sampleEngineDe.defaultLanguage.String →
      ∃ t : language.Tag, sampleParse s = some [t] ∧ t.String = s) ∧
    GoMap.lookup (setLocalizerByLng sampleEngineDe).localizerByLng "fr" =
      some (some { bundle := sampleEngineDe.bundle, lngs := ["fr", "de"] }) ∧
    ∃ localizer : i18n.Localizer SampleBundle,
      some { bundle := sampleEngineDe.bundle, lngs := ["fr", "de"] } = some localizer ∧
      (localizer.lngs ≠ [] ∧
        localizer.lngs.getLast? = some (setLocalizerByLng sampleEngineDe).defaultLanguage.String ∧
        localizer.lngs.Nodup) ∧
      (localizer.tags sampleParse ≠ [] ∧
        (localizer.tags sampleParse).getLast? =
          some (setLocalizerByLng sampleEngineDe).defaultLanguage ∧
        (localizer.tags sampleParse).Nodup) :=
  have hparse : ∀ s : String, s ∈ supportedStrings sampleEngineDe ∨
      s = sampleEngineDe.defaultLanguage.String →
      ∃ t : language.Tag, sampleParse s = some [t] ∧ t.String = s := by
    intro s hs
    have hs3 : s = "en" ∨ s = "fr" ∨ s = "de" := by
      simpa [supportedStrings, sampleEngineDe, sampleEngine, language.Tag.String, or_assoc]
        using hs
    rcases hs3 with h | h | h <;> subst h <;> exact ⟨_, rfl, rfl⟩
  ⟨hparse, rfl, (chain_well_formed sampleParse sampleEngineDe hparse).2 "fr" _ rfl⟩

/-- C5: the registry built by `setLocalizerByLng` has, under the string of every supported
language, the localizer `newLocalizer` builds for it; it has an entry under the default
language's string, also when the default is not supported; it has no entry under any other
key. -/
theorem setLocalizerByLng_registry (i : i18nImpl Ctx Bundle) :
    (∀ entry ∈ i.acceptLanguage,
      GoMap.lookup (setLocalizerByLng i).localizerByLng entry.1.String =
        some (newLocalizer i entry.1.String)) ∧
    GoMap.lookup (setLocalizerByLng i).localizerByLng i.defaultLanguage.String =
      some (newLocalizer i i.defaultLanguage.String) ∧
    (∀ k : String, (∀ entry ∈ i.acceptLanguage, entry.1.String ≠ k) →
      k ≠ i.defaultLanguage.String →
      GoMap.lookup (setLocalizerByLng i).localizerByLng k = none) := by
  refine ⟨?_, ?_, ?_⟩
  · intro entry hmem
    rw [setLocalizerByLng_lookup i entry.1.String]
    have : entry.1.String ∈ supportedStrings i := List.mem_map.mpr ⟨entry, hmem, rfl⟩
    simp [this]
  · rw [setLocalizerByLng_lookup i i.defaultLanguage.String]
    simp
  · intro k hk hd
    rw [setLocalizerByLng_lookup i k]
    have : k ∉ supportedStrings i := by
      intro hmem
      obtain ⟨entry, he, hs⟩ := List.mem_map.mp hmem
      exact hk entry he hs
    simp [this, hd]

/-- Witness of C5: supported languages `en` and `fr`, default `de`: entries under `fr` and `de`,
none under `xx`. -/
theorem setLocalizerByLng_registry_witness :
    GoMap.lookup (setLocalizerByLng sampleEngineDe).localizerByLng "fr" =
      some (newLocalizer sampleEngineDe "fr") ∧
    GoMap.lookup (setLocalizerByLng sampleEngineDe).localizerByLng "de" =
      some (newLocalizer sampleEngineDe "de") ∧
    GoMap.lookup (setLocalizerByLng sampleEngineDe).localizerByLng "xx" = none :=
  ⟨(setLocalizerByLng_registry sampleEngineDe).1 (⟨"fr"⟩, true) (by decide),
    (setLocalizerByLng_registry sampleEngineDe).2.1,
    (setLocalizerByLng_registry sampleEngineDe).2.2 "xx" (by decide) (by decide)⟩

end Registry

/-! ## Lookup requests (C6 - C10) -/

section Lookup

variable {Ctx Bundle : Type}

/-- The result of `MustGetMessage` is the string of `GetMessage`, which is empty whenever
`GetMessage` returns an error. -/
theorem MustGetMessage_of_GetMessage (GetLngFromGinContext : Option Ctx → String)
    (Localize : LocalizeFn Bundle) (i : i18nImpl Ctx Bundle) (param : Param)
    (message : String) (err : Option GoError)
    (h : GetMessage GetLngFromGinContext Localize i param = .ok (message, err)) :
    MustGetMessage GetLngFromGinContext Localize i param = .ok message ∧
    (err ≠ none → message = "") := by
  refine ⟨by simp [MustGetMessage, h], ?_⟩
  intro herr
  unfold GetMessage at h
  simp only at h
  split at h
  · cases h
  · split at h
    · cases h
      rfl
    · split at h
      · cases h
      · split at h
        · cases h
          rfl
        · cases h
          exact absurd rfl herr

/-- A string key `k` becomes the structured request with message key `k` and template data,
plural count and default message unset, and a `*LocalizeConfig` pointing to a struct `c` becomes a
structured request equal to `c` field for field; both without error. -/
theorem getLocalizeConfig_normalizes (i : i18nImpl Ctx Bundle) :
    (∀ k : String, getLocalizeConfig i (Param.string k) =
      .ok (some { MessageID := k, TemplateData := none, PluralCount := none,
                  DefaultMessage := none }, none)) ∧
    (∀ c : LocalizeConfig, ∃ result : i18n.LocalizeConfig,
      getLocalizeConfig i (Param.localizeConfig (some c)) = .ok (some result, none) ∧
      result.MessageID = c.MessageID ∧ result.TemplateData = c.TemplateData ∧
      result.PluralCount = c.PluralCount ∧ result.DefaultMessage = c.DefaultMessage) :=
  ⟨fun _ => rfl, fun _ => ⟨_, rfl, rfl, rfl, rfl, rfl⟩⟩

/-- C6 (failing input): on the nil pointer of type `*LocalizeConfig`, which the type switch
takes as a `*LocalizeConfig`, `getLocalizeConfig` does not return a structured request: it panics
with a nil dereference, in every engine state. -/
theorem getLocalizeConfig_nil_config_panics (i : i18nImpl Ctx Bundle) :
    getLocalizeConfig i (Param.localizeConfig none) = .error Panic.nilDereference := rfl

/-- C7: `getLocalizeConfig` returns an error exactly when the request is neither a string nor a
`*LocalizeConfig`; and whenever it returns an error, `GetMessage` returns the empty string with
that error, for every current language and whatever `Localize` would do. -/
theorem unsupported_param_rejected (i : i18nImpl Ctx Bundle) (param : Param) :
    ((∃ cfg e, getLocalizeConfig i param = .ok (cfg, some e)) ↔
      ((∀ k, param ≠ Param.string k) ∧ (∀ c, param ≠ Param.localizeConfig c))) ∧
    (∀ cfg e, getLocalizeConfig i param = .ok (cfg, some e) →
      ∀ (GetLngFromGinContext : Option Ctx → String) (Localize : LocalizeFn Bundle),
        GetMessage GetLngFromGinContext Localize i param = .ok ("", some e)) := by
  constructor
  · cases param with
    | string k => simp [getLocalizeConfig]
    | localizeConfig c =>
      cases c with
      | none => simp [getLocalizeConfig]
      | some v => simp [getLocalizeConfig]
    | other rendering => simp [getLocalizeConfig]
  · intro cfg e h GetLng Localize
    simp [GetMessage, h]

/-- Witness of C7: the request `42`, which is neither a string nor a `*LocalizeConfig`. -/
theorem unsupported_param_rejected_witness :
    getLocalizeConfig sampleEngine (Param.other "42") =
      .ok (none, some (GoError.errorsNew "un supported localize param: 42")) ∧
    GetMessage sampleGetLng sampleLocalize sampleEngine (Param.other "42") =
      .ok ("", some (GoError.errorsNew "un supported localize param: 42")) :=
  ⟨rfl, (unsupported_param_rejected sampleEngine (Param.other "42")).2 none _ rfl
    sampleGetLng sampleLocalize⟩

/-- C8 (failing input): on the nil pointer of type `*LocalizeConfig`, `MustGetMessage` panics
with a nil dereference, in every engine state and whatever the current language and `Localize`
are. -/
theorem MustGetMessage_nil_config_panics (GetLngFromGinContext : Option Ctx → String)
    (Localize : LocalizeFn Bundle) (i : i18nImpl Ctx Bundle) :
    MustGetMessage GetLngFromGinContext Localize i (Param.localizeConfig none) =
      .error Panic.nilDereference := rfl

/-- C9 (counterexample): the bare key `""` and a `*LocalizeConfig` with empty `MessageID` are
both normalized without error into a request with empty `MessageID`, and `GetMessage` on the bare
key `""` reaches `Localize`, whose error it returns. -/
theorem empty_key_not_rejected :
    getLocalizeConfig sampleEngine (Param.string "") =
      .ok (some { MessageID := "", TemplateData := none, PluralCount := none,
                  DefaultMessage := none }, none) ∧
    getLocalizeConfig sampleEngine (Param.localizeConfig (some
        { MessageID := "", TemplateData := none, PluralCount := some 2,
          DefaultMessage := none })) =
      .ok (some { MessageID := "", TemplateData := none, PluralCount := some 2,
                  DefaultMessage := none }, none) ∧
    GetMessage sampleGetLng sampleLocalize (setLocalizerByLng sampleEngine) (Param.string "") =
      .ok ("", some (GoError.localize "message not found: ")) :=
  ⟨rfl, rfl, rfl⟩

/-- C9 (amended): a request with an empty message key, the bare key `""` or a non-nil
`*LocalizeConfig` with empty `MessageID`, is normalized without error into a structured request
with empty `MessageID`, and `GetMessage` hands that request to `Localize` and returns what
`Localize` gives. -/
theorem empty_key_normalized (GetLngFromGinContext : Option Ctx → String)
    (Localize : LocalizeFn Bundle) (i : i18nImpl Ctx Bundle) (param : Param)
    (h : param = Param.string "" ∨
      ∃ c : LocalizeConfig, param = Param.localizeConfig (some c) ∧ c.MessageID = "") :
    ∃ cfg : i18n.LocalizeConfig,
      getLocalizeConfig i param = .ok (some cfg, none) ∧ cfg.MessageID = "" ∧
      GetMessage GetLngFromGinContext Localize i param =
        (match Localize (getLocalizerByLng i (GetLngFromGinContext i.currentContext))
            (some cfg) with
         | .error p => .error p
         | .ok (_, some e) => .ok ("", some e)
         | .ok (message, none) => .ok (message, none)) := by
  rcases h with h | ⟨c, h, hc⟩
  · subst h
    refine ⟨_, rfl, rfl, ?_⟩
    simp only [GetMessage, getLocalizeConfig]
    generalize Localize _ _ = r
    rcases r with p | ⟨message, _ | e⟩ <;> rfl
  · subst h
    refine ⟨_, rfl, hc, ?_⟩
    simp only [GetMessage, getLocalizeConfig]
    generalize Localize _ _ = r
    rcases r with p | ⟨message, _ | e⟩ <;> rfl

/-- Witness of C9 (amended): the bare key `""` on the sample registry. -/
theorem empty_key_normalized_witness :
    (Param.string "" = Param.string "" ∨
      ∃ c : LocalizeConfig, Param.string "" = Param.localizeConfig (some c) ∧ c.MessageID = "") ∧
    ∃ cfg : i18n.LocalizeConfig,
      getLocalizeConfig (setLocalizerByLng sampleEngine) (Param.string "") =
        .ok (some cfg, none) ∧ cfg.MessageID = "" ∧
      GetMessage sampleGetLng sampleLocalize (setLocalizerByLng sampleEngine) (Param.string "") =
        (match sampleLocalize (getLocalizerByLng (setLocalizerByLng sampleEngine)
            (sampleGetLng (setLocalizerByLng sampleEngine).currentContext)) (some cfg) with
         | .error p => .error p
         | .ok (_, some e) => .ok ("", some e)
         | .ok (message, none) => .ok (message, none)) :=
  ⟨Or.inl rfl, empty_key_normalized sampleGetLng sampleLocalize (setLocalizerByLng sampleEngine)
    (Param.string "") (Or.inl rfl)⟩

/-- C10 (counterexample): two engine states that agree on bundle, registry, supported languages
and default language, and differ only in the context stored by `SetCurrentGinContext`, give
different results for the same request. -/
theorem GetMessage_depends_on_currentContext :
    (SetCurrentGinContext (setLocalizerByLng sampleEngine) (some "fr")).bundle =
      (SetCurrentGinContext (setLocalizerByLng sampleEngine) (some "en")).bundle ∧
    (SetCurrentGinContext (setLocalizerByLng sampleEngine) (some "fr")).localizerByLng =
      (SetCurrentGinContext (setLocalizerByLng sampleEngine) (some "en")).localizerByLng ∧
    (SetCurrentGinContext (setLocalizerByLng sampleEngine) (some "fr")).acceptLanguage =
      (SetCurrentGinContext (setLocalizerByLng sampleEngine) (some "en")).acceptLanguage ∧
    (SetCurrentGinContext (setLocalizerByLng sampleEngine) (some "fr")).defaultLanguage =
      (SetCurrentGinContext (setLocalizerByLng sampleEngine) (some "en")).defaultLanguage ∧
    GetMessage sampleGetLng sampleLocalize
      (SetCurrentGinContext (setLocalizerByLng sampleEngine) (some "fr")) (Param.string "greet") =
        .ok ("Bonjour", none) ∧
    GetMessage sampleGetLng sampleLocalize
      (SetCurrentGinContext (setLocalizerByLng sampleEngine) (some "en")) (Param.string "greet") =
        .ok ("Hello", none) ∧
    GetMessage sampleGetLng sampleLocalize
      (SetCurrentGinContext (setLocalizerByLng sampleEngine) (some "fr")) (Param.string "greet") ≠
    GetMessage sampleGetLng sampleLocalize
      (SetCurrentGinContext (setLocalizerByLng sampleEngine) (some "en")) (Param.string "greet") := by
  refine ⟨rfl, rfl, rfl, rfl, rfl, rfl, ?_⟩
  intro h
  have h1 : GetMessage sampleGetLng sampleLocalize
      (SetCurrentGinContext (setLocalizerByLng sampleEngine) (some "fr")) (Param.string "greet") =
        .ok ("Bonjour", none) := rfl
  have h2 : GetMessage sampleGetLng sampleLocalize
      (SetCurrentGinContext (setLocalizerByLng sampleEngine) (some "en")) (Param.string "greet") =
        .ok ("Hello", none) := rfl
  rw [h1, h2] at h
  simp at h

/-- C10 (amended): the result of `GetMessage` is determined by the request, the registry, the
default language and the language read from the stored current context: two engine states that
agree on registry and default language and whose current contexts give the same language return
the same result for every request. -/
theorem GetMessage_determined (GetLngFromGinContext : Option Ctx → String)
    (Localize : LocalizeFn Bundle) (i j : i18nImpl Ctx Bundle) (param : Param)
    (hreg : i.localizerByLng = j.localizerByLng)
    (hdef : i.defaultLanguage = j.defaultLanguage)
    (hlng : GetLngFromGinContext i.currentContext = GetLngFromGinContext j.currentContext) :
    GetMessage GetLngFromGinContext Localize i param =
      GetMessage GetLngFromGinContext Localize j param := by
  have h1 : getLocalizeConfig i param = getLocalizeConfig j param := rfl
  have h2 : ∀ s, getLocalizerByLng i s = getLocalizerByLng j s := by
    intro s
    simp [getLocalizerByLng, hreg, hdef]
  unfold GetMessage
  simp only [h1, h2, hlng]

/-- Witness of C10 (amended): two states with the same registry, default language `en` and
current context `fr`, which differ in root path and supported-language map. -/
theorem GetMessage_determined_witness :
    GetMessage sampleGetLng sampleLocalize
      (SetCurrentGinContext (setLocalizerByLng sampleEngine) (some "fr")) (Param.string "greet") =
    GetMessage sampleGetLng sampleLocalize
      { SetCurrentGinContext (setLocalizerByLng sampleEngine) (some "fr") with
        rootPath := "elsewhere", acceptLanguage := [] } (Param.string "greet") :=
  GetMessage_determined sampleGetLng sampleLocalize _ _ (Param.string "greet") rfl rfl rfl

end Lookup

end GinI18n
